import Mathlib

/-!
# Verification of the intensitymagic configuration-sync and deployment tooling

A shallow embedding of the repository's sync/deploy scripts:

* `scripts/sync-config.sh` — `push_to_default` / `pull_from_default` over the
  `CONFIG_FILES` allowlist, with `--dry-run` / `--backup` / `--force` flags;
* `scripts/dev-tools/sync-to-project.js` — the `filesToSync` one-directional copy;
* `scripts/dev-tools/sync-all-projects.js` — the registered-projects batch sync;
* `scripts/dev-tools/pull-from-source.js` — the reverse harvest with its
  content-equality check;
* `scripts/deploy/verify-production.sh` and `verify-preview.sh` — health probes;
* `scripts/deploy/deploy-production.sh` and `deploy-preview.sh` — promotion gates;
* `scripts/init-new-project.sh` — bootstrap prompts, confirmation and the
  generated `.deployment-config.json` manifest;
* `docs/templates/scripts/_deployment-helpers.sh.template` — `export_config_vars`.

Filesystems are modelled as flat association lists from path to content; an
allowlisted directory entry behaves as one opaque value because the scripts
copy such entries wholesale (remove-then-copy).
-/

namespace IntensityMagic

/-- A flat model of a directory tree: an association list from path to content.
A path stands for a file or a whole directory subtree (the scripts copy
allowlisted directory entries wholesale with remove-then-copy, so a subtree
behaves as one opaque value). -/
abbrev FS := List (String × String)

/-- Content stored at a path; `none` when the path is absent.  Models
`fs.existsSync`/`fs.readFileSync` of the Node scripts and `[ -e ... ]`/`cat`
of the shell scripts. -/
def lookupFile : FS → String → Option String
  | [], _ => none
  | (q, c) :: rest, p => if q = p then some c else lookupFile rest p

/-- `fs.existsSync p` / `[ -e p ]`. -/
def fileExistsIn (fs : FS) (p : String) : Bool :=
  (lookupFile fs p).isSome

/-- Write `c` at path `p`, replacing any previous content.  The scripts remove
the destination and re-copy (`rm -rf` + `cp -r`, or `fs.copyFileSync`), which
on this flat model is plain replacement. -/
def writeFile : FS → String → String → FS
  | [], p, c => [(p, c)]
  | (q, d) :: rest, p, c =>
      if q = p then (p, c) :: rest else (q, d) :: writeFile rest p c

/-! ## `scripts/sync-config.sh`: push / pull over `CONFIG_FILES` -/

/-- The `CONFIG_FILES` allowlist of `scripts/sync-config.sh` (lines 41–63). -/
def CONFIG_FILES : List String :=
  [ ".claude/settings.json"
  , ".claude/commands"
  , ".claude/HOOKS_SETUP.md"
  , ".claude/GLOBAL_STANDARDS.md"
  , ".claude/CONFIG_SYNC_README.md"
  , ".claude/mcp.json"
  , "docs/UNIFIED_DEVELOPMENT_STANDARDS.md"
  , "docs/CLAUDE.md"
  , "docs/standards"
  , "docs/templates"
  , "docs/ops"
  , "src/app/CLAUDE.md"
  , "src/lib/CLAUDE.md"
  , "src/components/CLAUDE.md"
  , "scripts/dev-tools"
  , "scripts/deploy"
  , "scripts/init-new-project.sh"
  , "scripts/sync-config.sh"
  , ".github/workflows"
  , ".husky"
  , "CLAUDE.md" ]

/-- Outcome of one `push_to_default` / `pull_from_default` invocation: the
destination tree, this run's backup snapshot (the
`.sync-backups/<timestamp>` directory, kept separate from the synced tree),
the script's exit code, and the count printed by the summary line — `none`
when the run died before the summary was reached. -/
structure ShellSyncResult where
  dest : FS
  backupDir : FS
  exitCode : Nat
  summaryCount : Option Nat
deriving DecidableEq

/-- The `for file in CONFIG_FILES` copy loop of `push_to_default` /
`pull_from_default` in `scripts/sync-config.sh` (lines 103–142 and 177–216),
under the script's `set -euo pipefail` (line 2).  An entry missing under the
source root is only warned about (`Skipped ... doesn't exist`).  At the FIRST
entry present under the source root the loop copies it to the destination
(remove-then-copy; with `--backup` the destination's previous copy is first
snapshotted into the backup directory; with `--dry-run` it only prints
`Would copy`), and then executes `((count++))` (line 138 / 212): the
post-increment evaluates to the old value 0, the arithmetic command returns
exit status 1, and `set -e` kills the whole script with exit code 1 — no
later entry, no summary and nothing after the loop ever runs.  Only when NO
allowlisted entry exists under the source root does the loop complete, with
`count` still 0: the summary then reports 0 copied files and the script
exits 0.  The `--force` flag only suppresses the conflict warning text and
changes no state, so it does not appear here. -/
def shellSyncRun (src : FS) (dryRun backup : Bool) :
    List String → FS → FS → ShellSyncResult
  | [], dst, bk => ⟨dst, bk, 0, some 0⟩
  | f :: rest, dst, bk =>
    match lookupFile src f with
    | none => shellSyncRun src dryRun backup rest dst bk
    | some c =>
      if dryRun then ⟨dst, bk, 1, none⟩
      else
        let bk2 :=
          if backup then
            match lookupFile dst f with
            | some old => writeFile bk f old
            | none => bk
          else bk
        ⟨writeFile dst f c, bk2, 1, none⟩

/-- `push_to_default` of `scripts/sync-config.sh` (lines 87–159): run the
copy loop from the current project towards the `/default` hub.  Because of
the `((count++))` abort it copies at most the first source-present entry. -/
def push_to_default (projectFS defaultFS : FS) (dryRun backup force : Bool) :
    ShellSyncResult :=
  shellSyncRun projectFS dryRun backup CONFIG_FILES defaultFS []

/-- `scripts/generate-claude-md.sh`, as invoked at the end of a non-dry-run
`pull` (sync-config.sh lines 228–233): if the generator script is present in
the project, rebuild `CLAUDE.md` from the hub's template `CLAUDE.md` and the
project's `.claude/PROJECT_CONFIG.md`.  The concrete text produced by
`generate-claude-md.py` is not among this repository's sources, so the
generation itself is the abstract function `gen`; the guard structure is the
shell wrapper's.  Any generator failure is tolerated (`|| log_warn`), leaving
the tree unchanged. -/
def regenerateClaudeMd (gen : String → String → String) (hub project : FS) : FS :=
  if fileExistsIn project "scripts/generate-claude-md.sh" then
    match lookupFile hub "CLAUDE.md",
          lookupFile project ".claude/PROJECT_CONFIG.md" with
    | some t, some cfg => writeFile project "CLAUDE.md" (gen t cfg)
    | _, _ => project
  else project

/-- `pull_from_default` of `scripts/sync-config.sh` (lines 161–240): run the
copy loop from the `/default` hub towards the current project.  The summary
block — and with it the `CLAUDE.md` regeneration (lines 228–233), which only
runs without `--dry-run` — is reached only when the loop completed, i.e. when
no allowlisted entry existed under the hub; otherwise the `((count++))`
abort has already ended the script. -/
def pull_from_default (defaultFS projectFS : FS) (dryRun backup force : Bool)
    (gen : String → String → String) : ShellSyncResult :=
  let r := shellSyncRun defaultFS dryRun backup CONFIG_FILES projectFS []
  if dryRun then r
  else
    match r.summaryCount with
    | some _ => { r with dest := regenerateClaudeMd gen defaultFS r.dest }
    | none => r

/-- The aggregate counters of `push_to_default`'s summary (sync-config.sh
line 146 / 149): one copied-file count — printed only when the run did not
die at `((count++))` before reaching the summary. -/
def pushSummaryCounters (r : ShellSyncResult) : Option (List Nat) :=
  r.summaryCount.map fun n => [n]

/-- The aggregate counters of `pull_from_default`'s summary (sync-config.sh
line 220 / 223): one copied-file count — printed only when the run did not
die at `((count++))` before reaching the summary. -/
def pullSummaryCounters (r : ShellSyncResult) : Option (List Nat) :=
  r.summaryCount.map fun n => [n]

/-! ## `scripts/dev-tools/sync-to-project.js` -/

/-- One entry of the `filesToSync` list of `sync-to-project.js`: a source path
under the dev-standards root, a destination path under the target project, and
the `optional` flag. -/
structure SyncEntry where
  src : String
  dest : String
  optional : Bool
deriving DecidableEq

/-- The `filesToSync` list of `sync-to-project.js` (lines 31–55). -/
def filesToSync : List SyncEntry :=
  [ ⟨"configs/.gitleaks.toml", ".gitleaks.toml", false⟩
  , ⟨"configs/.prettierrc", ".prettierrc", false⟩
  , ⟨"configs/.mcp.json.template", ".mcp.json", false⟩
  , ⟨"scripts/restart-dev-server.js", "scripts/restart-dev-server.js", true⟩
  , ⟨"scripts/validate-env.js", "scripts/validate-env.js", true⟩
  , ⟨"utils/logger-enhanced.ts", "src/lib/utils/logger-enhanced.ts", false⟩
  , ⟨".dev-standards-version", ".dev-standards-version", false⟩ ]

/-- The state of `sync-to-project.js` while iterating `filesToSync`: the
target project tree and the `syncCount` / `skipCount` counters. -/
structure SyncToProjectResult where
  proj : FS
  syncCount : Nat
  skipCount : Nat
deriving DecidableEq

/-- The body of `filesToSync.forEach` in `sync-to-project.js` (lines 63–96):
a missing source is only warned about (`Source not found`) and the entry is
dropped without touching any counter; an `optional` entry whose destination
already exists is skipped (`skipCount++`); otherwise the file is copied
(`syncCount++`), or merely reported when `--dry-run` is set. -/
def syncToProjectStep (hub : FS) (dryRun : Bool) (st : SyncToProjectResult)
    (e : SyncEntry) : SyncToProjectResult :=
  match lookupFile hub e.src with
  | none => st
  | some c =>
    if fileExistsIn st.proj e.dest && e.optional then
      { st with skipCount := st.skipCount + 1 }
    else if dryRun then { st with syncCount := st.syncCount + 1 }
    else { st with proj := writeFile st.proj e.dest c,
                   syncCount := st.syncCount + 1 }

/-- `sync-to-project.js`: run the `filesToSync.forEach` loop against a target
project tree. -/
def syncToProject (hubFS projFS : FS) (dryRun : Bool) : SyncToProjectResult :=
  filesToSync.foldl (syncToProjectStep hubFS dryRun) ⟨projFS, 0, 0⟩

/-- The aggregate counters printed by `sync-to-project.js`'s summary
(lines 98–100): `Synced` and `Skipped`. -/
def syncToProjectSummaryCounters (r : SyncToProjectResult) : List Nat :=
  [r.syncCount, r.skipCount]

/-- Per-path effect of one non-dry `sync-to-project.js` pass: each entry with
destination `p` whose source exists either keeps the current value (entry is
`optional` and the path is present) or replaces it with the source content. -/
def syncAt (hub : FS) (p : String) : List SyncEntry → Option String → Option String
  | [], v => v
  | e :: rest, v =>
    if e.dest = p then
      match lookupFile hub e.src with
      | none => syncAt hub p rest v
      | some c =>
        if v.isSome && e.optional then syncAt hub p rest v
        else syncAt hub p rest (some c)
    else syncAt hub p rest v

/-! ## `scripts/dev-tools/pull-from-source.js` -/

/-- One entry of the `FILES_TO_PULL` list of `pull-from-source.js`: a source
path under the source project, a destination path under dev-standards, and the
`optional` flag (the `description` string does not influence control flow). -/
structure PullEntry where
  source : String
  dest : String
  optional : Bool
deriving DecidableEq

/-- The `FILES_TO_PULL.forEach` loop of `pull-from-source.js` (lines 147–190),
with `process.exit(1)` on a missing non-optional source modelled as an
`Except.error` carrying the exit code and the destination tree at that moment
(`fs.writeFileSync` is synchronous, so earlier writes stay).  A missing
optional source and a content-equal pair are both counted as skipped; a
differing pair is written (or merely reported under `--dry-run`) and counted
as changed. -/
def pullGo (srcFS : FS) (dryRun : Bool) :
    List PullEntry → FS → Nat → Nat → Except (Nat × FS) (FS × Nat × Nat)
  | [], dst, changed, skipped => .ok (dst, changed, skipped)
  | e :: rest, dst, changed, skipped =>
    match lookupFile srcFS e.source with
    | none =>
      if e.optional then pullGo srcFS dryRun rest dst changed (skipped + 1)
      else .error (1, dst)
    | some c =>
      let destContent := (lookupFile dst e.dest).getD ""
      if c = destContent then pullGo srcFS dryRun rest dst changed (skipped + 1)
      else if dryRun then pullGo srcFS dryRun rest dst (changed + 1) skipped
      else pullGo srcFS dryRun rest (writeFile dst e.dest c) (changed + 1) skipped

/-- The aggregate counters printed by `pull-from-source.js`'s summary
(lines 192–194): `Updated` and `Up to date`. -/
def pullFromSourceSummaryCounters (changed skipped : Nat) : List Nat :=
  [changed, skipped]

/-! ## `scripts/dev-tools/sync-all-projects.js` -/

/-- One registered project of `sync-all-projects.js`: its name, its tree
(`none` when the registered path does not exist on disk), and whether the
spawned `sync-to-project.js` subprocess succeeds (that subprocess only fails
before writing anything: its own early exits precede every copy). -/
structure RegisteredProject where
  name : String
  tree : Option FS
  execOk : Bool
deriving DecidableEq

/-- Accumulated state of the `PROJECTS.forEach` loop of
`sync-all-projects.js`: the projects after the run plus the three counters of
its summary. -/
structure SyncAllResult where
  projects : List RegisteredProject
  successCount : Nat
  skipCount : Nat
  errorCount : Nat
deriving DecidableEq

/-- The aggregate counters printed by `sync-all-projects.js`'s summary
(lines 111–113): `Synced`, `Skipped`, `Errors`. -/
def syncAllSummaryCounters (r : SyncAllResult) : List Nat :=
  [r.successCount, r.skipCount, r.errorCount]

/-- `sync-all-projects.js` exit code (line 130): 1 iff any per-project
error. -/
def syncAllExitCode (r : SyncAllResult) : Nat :=
  if r.errorCount > 0 then 1 else 0

/-! ## The deployment manifest and `_deployment-helpers.sh` -/

/-- The `.deployment-config.json` manifest (shape per
`init-new-project.sh` lines 158–183). -/
structure DeploymentConfig where
  projectName : String
  githubOwner : String
  githubRepo : String
  vercelProjectName : String
  previewUrl : String
  productionUrl : String
  previewBranch : String
  previewSupabaseRef : String
  previewClerkInstance : String
  productionBranch : String
  productionSupabaseRef : String
  productionClerkInstance : String
deriving DecidableEq

/-- The manifest written by `init-new-project.sh` (lines 158–183): the
preview URL follows the fixed convention
`https://<vercelProjectName>-git-preview-<team>.vercel.app`, the production
URL is `https://<domain>`, and the branch / Clerk-instance fields are the
constants `preview` / `main` / `preview` / `production`. -/
def mkDeploymentConfig (projectName githubOwner githubRepo vercelProjectName
    vercelTeam productionDomain supabasePreviewRef supabaseProductionRef :
    String) : DeploymentConfig :=
  { projectName := projectName
  , githubOwner := githubOwner
  , githubRepo := githubRepo
  , vercelProjectName := vercelProjectName
  , previewUrl :=
      "https://" ++ vercelProjectName ++ "-git-preview-" ++ vercelTeam
        ++ ".vercel.app"
  , productionUrl := "https://" ++ productionDomain
  , previewBranch := "preview"
  , previewSupabaseRef := supabasePreviewRef
  , previewClerkInstance := "preview"
  , productionBranch := "main"
  , productionSupabaseRef := supabaseProductionRef
  , productionClerkInstance := "production" }

/-- The eight environment variables exported by `export_config_vars` of
`docs/templates/scripts/_deployment-helpers.sh.template` (lines 100–109). -/
structure ConfigVars where
  PROJECT_NAME : String
  GITHUB_OWNER : String
  GITHUB_REPO : String
  VERCEL_PROJECT_NAME : String
  PREVIEW_URL : String
  PRODUCTION_URL : String
  PREVIEW_BRANCH : String
  PRODUCTION_BRANCH : String
deriving DecidableEq

/-- `export_config_vars`: each exported variable is the corresponding
`jq -r` field of the loaded manifest. -/
def export_config_vars (c : DeploymentConfig) : ConfigVars :=
  { PROJECT_NAME := c.projectName
  , GITHUB_OWNER := c.githubOwner
  , GITHUB_REPO := c.githubRepo
  , VERCEL_PROJECT_NAME := c.vercelProjectName
  , PREVIEW_URL := c.previewUrl
  , PRODUCTION_URL := c.productionUrl
  , PREVIEW_BRANCH := c.previewBranch
  , PRODUCTION_BRANCH := c.productionBranch }

/-! ## `scripts/deploy/verify-production.sh` and `verify-preview.sh` -/

/-- One probe's printed outcome line (`   ✅ Passed` / `   ❌ Failed`). -/
inductive ProbeLine where
  | passed
  | failed
deriving DecidableEq

/-- One `curl -f ... --max-time 30` probe block: append the outcome line and
bump `FAILURES` when the probe fails (non-2xx or timeout). -/
def probeCheck (ok : Bool) (st : List ProbeLine × Nat) : List ProbeLine × Nat :=
  if ok then (st.1 ++ [ProbeLine.passed], st.2)
  else (st.1 ++ [ProbeLine.failed], st.2 + 1)

/-- `verify-production.sh` (lines 15–58): three probes — `/api/health`, the
home page, `/sign-in` — then exit 0 iff `FAILURES` is zero.  Returns the
probe outcome lines, the `FAILURES` counter, and the exit code. -/
def verifyProduction (healthOk homeOk authOk : Bool) :
    List ProbeLine × Nat × Nat :=
  let st := probeCheck authOk (probeCheck homeOk (probeCheck healthOk ([], 0)))
  (st.1, st.2, if st.2 = 0 then 0 else 1)

/-- `verify-preview.sh` (lines 15–48): two probes — `/api/health` and the
home page — then exit 0 iff `FAILURES` is zero. -/
def verifyPreview (healthOk homeOk : Bool) : List ProbeLine × Nat × Nat :=
  let st := probeCheck homeOk (probeCheck healthOk ([], 0))
  (st.1, st.2, if st.2 = 0 then 0 else 1)

/-- Number of failing probes among the given outcomes. -/
def failCount (outcomes : List Bool) : Nat :=
  outcomes.countP (fun b => b = false)

/-! ## `scripts/deploy/deploy-production.sh` -/

/-- Externally observable actions of `deploy-production.sh`, in script
order. -/
inductive ProdEvent where
  | previewHealthProbe
  | confirmationPrompt
  | gitPull
  | validateProduction
  | prCreate
deriving DecidableEq

/-- The ambient state `deploy-production.sh` runs against. -/
structure ProdEnv where
  missingTools : List String
  ghAuthOk : Bool
  config : Option DeploymentConfig
  currentBranch : String
  previewHealthy : Bool
  confirmationReply : String
  gitPullOk : Bool
  validateOk : Bool
deriving DecidableEq

/-- `deploy-production.sh` (`src/unnamed/part_012`): prerequisites, GitHub
auth, manifest load, the hard branch gate (line 26: current branch must equal
`PREVIEW_BRANCH`), the Preview health precondition, the checklist prompt
(line 54, requiring the literal reply `yes`; any other reply prints
`Deployment cancelled` and exits 1), then `git pull`, `npm run
validate-production` (each fatal under `set -e`) and `gh pr create` (guarded
by `|| echo`, never fatal).  Returns the exit code and the event trace. -/
def deploy_production (env : ProdEnv) : Nat × List ProdEvent :=
  if env.missingTools ≠ [] then (1, [])
  else if ¬ env.ghAuthOk then (1, [])
  else
    match env.config with
    | none => (1, [])
    | some cfg =>
      if env.currentBranch ≠ cfg.previewBranch then (1, [])
      else if ¬ env.previewHealthy then (1, [ProdEvent.previewHealthProbe])
      else if env.confirmationReply ≠ "yes" then
        (1, [ProdEvent.previewHealthProbe, ProdEvent.confirmationPrompt])
      else if ¬ env.gitPullOk then
        (1, [ProdEvent.previewHealthProbe, ProdEvent.confirmationPrompt,
             ProdEvent.gitPull])
      else if ¬ env.validateOk then
        (1, [ProdEvent.previewHealthProbe, ProdEvent.confirmationPrompt,
             ProdEvent.gitPull, ProdEvent.validateProduction])
      else
        (0, [ProdEvent.previewHealthProbe, ProdEvent.confirmationPrompt,
             ProdEvent.gitPull, ProdEvent.validateProduction,
             ProdEvent.prCreate])

/-! ## `scripts/deploy/deploy-preview.sh` -/

/-- Externally observable actions of `deploy-preview.sh`, in script order. -/
inductive PrevEvent where
  | validateProduction
  | gitPush
  | prPrompt
  | prCreate
  | verifyPreviewRun
deriving DecidableEq

/-- The ambient state `deploy-preview.sh` runs against. -/
structure PrevEnv where
  missingTools : List String
  config : Option DeploymentConfig
  currentBranch : String
  workingTreeClean : Bool
  validateOk : Bool
  gitPushOk : Bool
  prReply : String
  ghAuthOk : Bool
  previewHealthOk : Bool
  previewHomeOk : Bool
deriving DecidableEq

/-- `deploy-preview.sh` (`src/unnamed/part_013`): prerequisites, manifest
load, the branch gate (line 23: current branch must equal `PREVIEW_BRANCH` or
match `^feature/`), the clean-tree gate, `npm run validate-production`,
`git push` (fatal on failure under `set -e`), the optional PR prompt on
feature branches (reply `y`/`Y` runs `check_gh_auth`, fatal if not
authenticated, then `gh pr create || echo`), the 90-second wait, and
delegation to `verify-preview.sh` (fatal when it exits non-zero). -/
def deploy_preview (env : PrevEnv) : Nat × List PrevEvent :=
  if env.missingTools ≠ [] then (1, [])
  else
    match env.config with
    | none => (1, [])
    | some cfg =>
      if env.currentBranch ≠ cfg.previewBranch
          ∧ ¬ env.currentBranch.startsWith "feature/" then (1, [])
      else if ¬ env.workingTreeClean then (1, [])
      else if ¬ env.validateOk then (1, [PrevEvent.validateProduction])
      else if ¬ env.gitPushOk then
        (1, [PrevEvent.validateProduction, PrevEvent.gitPush])
      else
        let afterPush := [PrevEvent.validateProduction, PrevEvent.gitPush]
        if env.currentBranch.startsWith "feature/" then
          let afterPrompt := afterPush ++ [PrevEvent.prPrompt]
          if env.prReply = "y" ∨ env.prReply = "Y" then
            if ¬ env.ghAuthOk then (1, afterPrompt)
            else
              let t := afterPrompt ++ [PrevEvent.prCreate]
              if (verifyPreview env.previewHealthOk env.previewHomeOk).2.2 = 0 then
                (0, t ++ [PrevEvent.verifyPreviewRun])
              else (1, t ++ [PrevEvent.verifyPreviewRun])
          else
            if (verifyPreview env.previewHealthOk env.previewHomeOk).2.2 = 0 then
              (0, afterPrompt ++ [PrevEvent.verifyPreviewRun])
            else (1, afterPrompt ++ [PrevEvent.verifyPreviewRun])
        else
          if (verifyPreview env.previewHealthOk env.previewHomeOk).2.2 = 0 then
            (0, afterPush ++ [PrevEvent.verifyPreviewRun])
          else (1, afterPush ++ [PrevEvent.verifyPreviewRun])

/-! ## `scripts/init-new-project.sh` -/

/-- Externally observable mutations of `init-new-project.sh`, in script
order.  Everything from `copyTemplateTree` on touches the filesystem; nothing
before the confirmation prompt does. -/
inductive InitEvent where
  | copyTemplateTree
  | cleanTemplateArtifacts
  | writeDeploymentConfig
  | copyDeployScripts
  | gitInitCommit
  | writeEnvTemplate
  | updatePackageJson
  | writeReadme
deriving DecidableEq

/-- The ambient state and interactive answers of `init-new-project.sh`.  An
empty `projectName` models a missing argument; the `...Input` fields are raw
prompt replies, defaulted as in the script. -/
structure InitEnv where
  projectName : String
  targetDirAlreadyExists : Bool
  nodeAvailable : Bool
  jqAvailable : Bool
  githubOwner : String
  githubRepoInput : String
  vercelProjectNameInput : String
  vercelTeam : String
  productionDomain : String
  supabasePreviewRefInput : String
  supabaseProductionRefInput : String
  confirmationReply : String
  deployTemplatesPresent : Bool
deriving DecidableEq

/-- The project-name gate of `init-new-project.sh` line 32:
`^[a-z0-9-]+$`. -/
def validProjectName (s : String) : Bool :=
  s ≠ "" && s.toList.all fun ch => ch.isLower || ch.isDigit || ch = '-'

/-- `init-new-project.sh` (`src/unnamed/part_000`): argument and name
validation, existing-directory refusal, tool checks, interactive collection
with defaulting, the summary confirmation (declining prints `Cancelled.` and
exits 0 with nothing yet mutated), then the eight mutation steps; a missing
deployment script template aborts with exit 1 *after* the tree copy, cleanup
and manifest write.  Returns exit code, mutation trace, and the manifest
written (when reached). -/
def init_new_project (env : InitEnv) : Nat × List InitEvent × Option DeploymentConfig :=
  if env.projectName = "" then (1, [], none)
  else if ¬ validProjectName env.projectName then (1, [], none)
  else if env.targetDirAlreadyExists then (1, [], none)
  else if ¬ (env.nodeAvailable && env.jqAvailable) then (1, [], none)
  else if ¬ (env.confirmationReply = "y" ∨ env.confirmationReply = "Y") then
    (0, [], none)
  else
    let githubRepo :=
      if env.githubRepoInput = "" then env.projectName else env.githubRepoInput
    let vercelName :=
      if env.vercelProjectNameInput = "" then env.projectName
      else env.vercelProjectNameInput
    let prevRef :=
      if env.supabasePreviewRefInput = "" then "YOUR_PREVIEW_PROJECT_REF"
      else env.supabasePreviewRefInput
    let prodRef :=
      if env.supabaseProductionRefInput = "" then "YOUR_PRODUCTION_PROJECT_REF"
      else env.supabaseProductionRefInput
    let cfg := mkDeploymentConfig env.projectName env.githubOwner githubRepo
      vercelName env.vercelTeam env.productionDomain prevRef prodRef
    let started := [InitEvent.copyTemplateTree, InitEvent.cleanTemplateArtifacts,
                    InitEvent.writeDeploymentConfig]
    if ¬ env.deployTemplatesPresent then (1, started, some cfg)
    else
      (0, started ++ [InitEvent.copyDeployScripts, InitEvent.gitInitCommit,
                      InitEvent.writeEnvTemplate, InitEvent.updatePackageJson,
                      InitEvent.writeReadme], some cfg)

/-! ## Lemmas about the filesystem model and the sync loops -/

theorem lookupFile_writeFile_self (fs : FS) (p c : String) :
    lookupFile (writeFile fs p c) p = some c := by
  induction fs with
  | nil => simp [writeFile, lookupFile]
  | cons hd tl ih =>
    obtain ⟨q, d⟩ := hd
    by_cases h : q = p
    · simp [writeFile, lookupFile, h]
    · simp [writeFile, lookupFile, h, ih]

theorem lookupFile_writeFile_ne (fs : FS) (p c q : String) (h : q ≠ p) :
    lookupFile (writeFile fs p c) q = lookupFile fs q := by
  induction fs with
  | nil => simp [writeFile, lookupFile, Ne.symm h]
  | cons hd tl ih =>
    obtain ⟨r, d⟩ := hd
    by_cases hr : r = p
    · subst hr
      simp [writeFile, lookupFile, Ne.symm h]
    · by_cases hq : r = q
      · subst hq
        simp [writeFile, lookupFile, hr, h]
      · simp [writeFile, lookupFile, hr, hq, ih]

theorem writeFile_writeFile_same (fs : FS) (p c : String) :
    writeFile (writeFile fs p c) p c = writeFile fs p c := by
  induction fs with
  | nil => simp [writeFile]
  | cons hd tl ih =>
    obtain ⟨q, d⟩ := hd
    by_cases h : q = p
    · simp [writeFile, h]
    · simp [writeFile, h, ih]

theorem shellSyncRun_twice_dest (src : FS) (b1 b2 : Bool)
    (files : List String) (dst k1 k2 : FS) :
    (shellSyncRun src false b2 files
        ((shellSyncRun src false b1 files dst k1).dest) k2).dest
      = (shellSyncRun src false b1 files dst k1).dest := by
  induction files generalizing dst k1 k2 with
  | nil => rfl
  | cons f rest ih =>
    cases hsrc : lookupFile src f with
    | none => simp [shellSyncRun, hsrc, ih]
    | some c => simp [shellSyncRun, hsrc, writeFile_writeFile_same]

theorem shellSyncRun_no_source (src : FS) (dryRun backup : Bool)
    (files : List String) (dst bk : FS)
    (h : ∀ f ∈ files, lookupFile src f = none) :
    shellSyncRun src dryRun backup files dst bk = ⟨dst, bk, 0, some 0⟩ := by
  induction files generalizing dst bk with
  | nil => rfl
  | cons f rest ih =>
    have hf : lookupFile src f = none := h f (List.mem_cons_self f rest)
    have hrest : ∀ g ∈ rest, lookupFile src g = none :=
      fun g hg => h g (List.mem_cons_of_mem f hg)
    simp [shellSyncRun, hf, ih dst bk hrest]

theorem shellSyncRun_abort (src : FS) (dryRun backup : Bool)
    (files : List String) (dst bk : FS) (f : String) (hf : f ∈ files)
    (hsome : (lookupFile src f).isSome = true) :
    (shellSyncRun src dryRun backup files dst bk).exitCode = 1
      ∧ (shellSyncRun src dryRun backup files dst bk).summaryCount = none := by
  induction files generalizing dst bk with
  | nil => cases hf
  | cons g rest ih =>
    cases hsrc : lookupFile src g with
    | none =>
      have hfr : f ∈ rest := by
        rcases List.mem_cons.mp hf with h1 | h1
        · subst h1
          rw [hsrc] at hsome
          cases hsome
        · exact h1
      simpa [shellSyncRun, hsrc] using ih dst bk hfr
    | some c =>
      cases dryRun with
      | true => simp [shellSyncRun, hsrc]
      | false => simp [shellSyncRun, hsrc]

theorem lookupFile_regenerateClaudeMd_ne (gen : String → String → String)
    (hub x : FS) (p : String) (h : p ≠ "CLAUDE.md") :
    lookupFile (regenerateClaudeMd gen hub x) p = lookupFile x p := by
  unfold regenerateClaudeMd
  by_cases hg : fileExistsIn x "scripts/generate-claude-md.sh"
  · cases ht : lookupFile hub "CLAUDE.md" with
    | none => simp [hg, ht]
    | some t =>
      cases hc : lookupFile x ".claude/PROJECT_CONFIG.md" with
      | none => simp [hg, ht, hc]
      | some cfg => simp [hg, ht, hc, lookupFile_writeFile_ne _ _ _ _ h]
  · simp [hg]

theorem regenerateClaudeMd_guard_false (gen : String → String → String)
    (hub x : FS)
    (h : ¬ (fileExistsIn x "scripts/generate-claude-md.sh" = true
            ∧ (lookupFile hub "CLAUDE.md").isSome = true
            ∧ (lookupFile x ".claude/PROJECT_CONFIG.md").isSome = true)) :
    regenerateClaudeMd gen hub x = x := by
  unfold regenerateClaudeMd
  by_cases hg : fileExistsIn x "scripts/generate-claude-md.sh"
  · cases ht : lookupFile hub "CLAUDE.md" with
    | none => simp [hg, ht]
    | some t =>
      cases hc : lookupFile x ".claude/PROJECT_CONFIG.md" with
      | none => simp [hg, ht, hc]
      | some cfg => exact absurd ⟨hg, by simp [ht], by simp [hc]⟩ h
  · simp [hg]

theorem regenerateClaudeMd_guard_true (gen : String → String → String)
    (hub x : FS) (t cfg : String)
    (hg : fileExistsIn x "scripts/generate-claude-md.sh" = true)
    (ht : lookupFile hub "CLAUDE.md" = some t)
    (hc : lookupFile x ".claude/PROJECT_CONFIG.md" = some cfg) :
    regenerateClaudeMd gen hub x = writeFile x "CLAUDE.md" (gen t cfg) := by
  unfold regenerateClaudeMd
  simp [hg, ht, hc]

theorem syncAt_isSome_mono (hub : FS) (p : String) (es : List SyncEntry)
    (v : Option String) (hv : v.isSome = true) :
    (syncAt hub p es v).isSome = true := by
  induction es generalizing v with
  | nil => exact hv
  | cons e rest ih =>
    by_cases hd : e.dest = p
    · cases hsrc : lookupFile hub e.src with
      | none => simpa [syncAt, hd, hsrc] using ih v hv
      | some c =>
        cases hb : (v.isSome && e.optional) with
        | false => simpa [syncAt, hd, hsrc, hb] using ih (some c) rfl
        | true => simpa [syncAt, hd, hsrc, hb] using ih v hv
    · simpa [syncAt, hd] using ih v hv

theorem syncAt_idem (hub : FS) (p : String) (es : List SyncEntry)
    (v : Option String) :
    syncAt hub p es (syncAt hub p es v) = syncAt hub p es v := by
  induction es generalizing v with
  | nil => rfl
  | cons e rest ih =>
    by_cases hd : e.dest = p
    · cases hsrc : lookupFile hub e.src with
      | none => simp [syncAt, hd, hsrc, ih]
      | some c =>
        cases hopt : e.optional with
        | false => simp [syncAt, hd, hsrc, hopt, ih]
        | true =>
          cases hv : v.isSome with
          | false =>
            have hsome : (syncAt hub p rest (some c)).isSome = true :=
              syncAt_isSome_mono hub p rest (some c) rfl
            simp [syncAt, hd, hsrc, hopt, hv, hsome, ih]
          | true =>
            have hsome : (syncAt hub p rest v).isSome = true :=
              syncAt_isSome_mono hub p rest v hv
            simp [syncAt, hd, hsrc, hopt, hv, hsome, ih]
    · simp [syncAt, hd, ih]

theorem syncFold_proj_lookup (hub : FS) (es : List SyncEntry) (p : String)
    (st : SyncToProjectResult) :
    lookupFile (es.foldl (syncToProjectStep hub false) st).proj p
      = syncAt hub p es (lookupFile st.proj p) := by
  induction es generalizing st with
  | nil => rfl
  | cons e rest ih =>
    cases hsrc : lookupFile hub e.src with
    | none =>
      by_cases hd : e.dest = p
      · simp [List.foldl_cons, syncToProjectStep, hsrc, syncAt, hd, ih]
      · simp [List.foldl_cons, syncToProjectStep, hsrc, syncAt, hd, ih]
    | some c =>
      by_cases hd : e.dest = p
      · subst hd
        cases hb : (fileExistsIn st.proj e.dest && e.optional) with
        | false =>
          have hb2 : ((lookupFile st.proj e.dest).isSome && e.optional) = false := by
            simpa [fileExistsIn] using hb
          simp [List.foldl_cons, syncToProjectStep, hsrc, syncAt, hb, hb2, ih,
                lookupFile_writeFile_self]
        | true =>
          have hb2 : ((lookupFile st.proj e.dest).isSome && e.optional) = true := by
            simpa [fileExistsIn] using hb
          simp [List.foldl_cons, syncToProjectStep, hsrc, syncAt, hb, hb2, ih]
      · cases hb : (fileExistsIn st.proj e.dest && e.optional) with
        | false =>
          simp [List.foldl_cons, syncToProjectStep, hsrc, syncAt, hd, hb, ih,
                lookupFile_writeFile_ne st.proj e.dest c p (Ne.symm hd)]
        | true => simp [List.foldl_cons, syncToProjectStep, hsrc, syncAt, hd, hb, ih]

theorem syncFold_dryRun_proj (hub : FS) (es : List SyncEntry)
    (st : SyncToProjectResult) :
    (es.foldl (syncToProjectStep hub true) st).proj = st.proj := by
  induction es generalizing st with
  | nil => rfl
  | cons e rest ih =>
    cases hsrc : lookupFile hub e.src with
    | none => simp [List.foldl_cons, syncToProjectStep, hsrc, ih]
    | some c =>
      rcases Bool.eq_false_or_eq_true (fileExistsIn st.proj e.dest && e.optional)
        with hb | hb
      · simp [List.foldl_cons, syncToProjectStep, hsrc, hb, ih]
      · simp [List.foldl_cons, syncToProjectStep, hsrc, hb, ih]

theorem pullGo_append (srcFS : FS) (dryRun : Bool) (xs ys : List PullEntry)
    (dst : FS) (changed skipped : Nat) :
    pullGo srcFS dryRun (xs ++ ys) dst changed skipped
      = match pullGo srcFS dryRun xs dst changed skipped with
        | .error r => .error r
        | .ok (d, c, s) => pullGo srcFS dryRun ys d c s := by
  induction xs generalizing dst changed skipped with
  | nil => simp [pullGo]
  | cons e rest ih =>
    cases hsrc : lookupFile srcFS e.source with
    | none =>
      cases hopt : e.optional with
      | false => simp [pullGo, hsrc, hopt]
      | true => simp [pullGo, hsrc, hopt, ih]
    | some c =>
      by_cases heq : c = (lookupFile dst e.dest).getD ""
      · simp [pullGo, hsrc, heq, ih]
      · cases dryRun with
        | false => simp [pullGo, hsrc, heq, ih]
        | true => simp [pullGo, hsrc, heq, ih]

theorem syncAt_optional_stable (hub : FS) (d : String) (es : List SyncEntry)
    (v : String) (hall : ∀ f ∈ es, f.dest = d → f.optional = true) :
    syncAt hub d es (some v) = some v := by
  induction es with
  | nil => rfl
  | cons e rest ih =>
    have hallRest : ∀ f ∈ rest, f.dest = d → f.optional = true :=
      fun f hf => hall f (List.mem_cons_of_mem e hf)
    by_cases hd : e.dest = d
    · have hopt : e.optional = true := hall e (List.mem_cons_self e rest) hd
      cases hsrc : lookupFile hub e.src with
      | none => simp [syncAt, hd, hsrc, ih hallRest]
      | some c => simp [syncAt, hd, hsrc, hopt, ih hallRest]
    · simp [syncAt, hd, ih hallRest]

theorem regenerateClaudeMd_idem (gen : String → String → String)
    (hub x : FS) :
    regenerateClaudeMd gen hub (regenerateClaudeMd gen hub x)
      = regenerateClaudeMd gen hub x := by
  by_cases hg : fileExistsIn x "scripts/generate-claude-md.sh" = true
  · cases ht : lookupFile hub "CLAUDE.md" with
    | none => simp [regenerateClaudeMd, hg, ht]
    | some t =>
      cases hc : lookupFile x ".claude/PROJECT_CONFIG.md" with
      | none => simp [regenerateClaudeMd, hg, ht, hc]
      | some cfg =>
        have hgy : fileExistsIn (writeFile x "CLAUDE.md" (gen t cfg))
            "scripts/generate-claude-md.sh" = true := by
          unfold fileExistsIn
          rw [lookupFile_writeFile_ne x "CLAUDE.md" (gen t cfg)
            "scripts/generate-claude-md.sh" (by decide)]
          exact hg
        have hcy : lookupFile (writeFile x "CLAUDE.md" (gen t cfg))
            ".claude/PROJECT_CONFIG.md" = some cfg := by
          rw [lookupFile_writeFile_ne x "CLAUDE.md" (gen t cfg)
            ".claude/PROJECT_CONFIG.md" (by decide)]
          exact hc
        rw [regenerateClaudeMd_guard_true gen hub x t cfg hg ht hc,
            regenerateClaudeMd_guard_true gen hub _ t cfg hgy ht hcy,
            writeFile_writeFile_same]
  · have hg2 : fileExistsIn x "scripts/generate-claude-md.sh" = false :=
      Bool.eq_false_iff.mpr hg
    simp [regenerateClaudeMd, hg2]

/-! ## Claim theorems -/

/-- C1 counterexample: with a hub holding only `configs/.prettierrc` and an
initially empty project, running `sync-to-project.js` twice in succession
with no intervening changes still reports `Synced: 1` on the second run, not
zero — the non-optional entry is re-copied and re-counted, and no sync
operation among push, pull and syncToProject reports "already up to date". -/
theorem C1_sync_twice_counterexample :
    (syncToProject [("configs/.prettierrc", "A")]
        (syncToProject [("configs/.prettierrc", "A")] [] false).proj
        false).syncCount = 1
      ∧ (1 : Nat) ≠ 0 := by
  constructor
  · decide
  · decide

/-- C1 (amended): running `push`, `pull` or `syncToProject` twice in
succession with no intervening changes leaves the destination after the
second run identical to after the first run — the sync is idempotent in
effect — but the second run does not report zero files copied and nothing is
ever reported as already up to date: `syncToProject` re-copies and re-counts
every non-optional source-present entry (no content check), while `push` and
`pull` copy the first source-present allowlisted entry again with identical
content and then die with exit 1 at `((count++))` under `set -euo pipefail`,
printing no summary count at all — exactly as the first run did; they reach
a summary (reporting 0) only in the degenerate case where no allowlisted
entry exists under the source.  The `pull` statement holds for every
deterministic `CLAUDE.md` generator function. -/
theorem C1_sync_twice_amended :
    (∀ hub d : FS, ∀ p : String,
        lookupFile (syncToProject hub (syncToProject hub d false).proj false).proj p
          = lookupFile (syncToProject hub d false).proj p)
    ∧ (∀ proj d : FS, ∀ bk1 frc1 bk2 frc2 : Bool,
        (push_to_default proj
            (push_to_default proj d false bk1 frc1).dest false bk2 frc2).dest
          = (push_to_default proj d false bk1 frc1).dest)
    ∧ (∀ gen : String → String → String, ∀ hub d : FS, ∀ bk1 frc1 bk2 frc2 : Bool,
        (pull_from_default hub
            (pull_from_default hub d false bk1 frc1 gen).dest false bk2 frc2 gen).dest
          = (pull_from_default hub d false bk1 frc1 gen).dest)
    ∧ (∀ proj d : FS, ∀ dr bk frc : Bool, ∀ f : String,
        f ∈ CONFIG_FILES → (lookupFile proj f).isSome = true →
        (push_to_default proj d dr bk frc).exitCode = 1
          ∧ (push_to_default proj d dr bk frc).summaryCount = none)
    ∧ (∀ gen : String → String → String, ∀ hub d : FS, ∀ dr bk frc : Bool,
        ∀ f : String, f ∈ CONFIG_FILES → (lookupFile hub f).isSome = true →
        (pull_from_default hub d dr bk frc gen).exitCode = 1
          ∧ (pull_from_default hub d dr bk frc gen).summaryCount = none) := by
  refine ⟨?_, ?_, ?_, ?_, ?_⟩
  · intro hub d p
    simp only [syncToProject, syncFold_proj_lookup]
    exact syncAt_idem hub p filesToSync (lookupFile d p)
  · intro proj d bk1 frc1 bk2 frc2
    exact shellSyncRun_twice_dest proj bk1 bk2 CONFIG_FILES d [] []
  · intro gen hub d bk1 frc1 bk2 frc2
    by_cases hall : ∀ f ∈ CONFIG_FILES, lookupFile hub f = none
    · have h1 := shellSyncRun_no_source hub false bk1 CONFIG_FILES d [] hall
      have h2 := shellSyncRun_no_source hub false bk2 CONFIG_FILES
        (regenerateClaudeMd gen hub d) [] hall
      simp [pull_from_default, h1, h2, regenerateClaudeMd_idem]
    · have hx : ∃ f ∈ CONFIG_FILES, ¬ lookupFile hub f = none := by
        simpa [not_forall] using hall
      obtain ⟨f, hf, hne⟩ := hx
      have hsome : (lookupFile hub f).isSome = true :=
        Option.ne_none_iff_isSome.mp hne
      have h1 := shellSyncRun_abort hub false bk1 CONFIG_FILES d [] f hf hsome
      have h2 := shellSyncRun_abort hub false bk2 CONFIG_FILES
        ((shellSyncRun hub false bk1 CONFIG_FILES d []).dest) [] f hf hsome
      simp only [pull_from_default, Bool.false_eq_true, if_false, h1.2, h2.2]
      exact shellSyncRun_twice_dest hub bk1 bk2 CONFIG_FILES d [] []
  · intro proj d dr bk frc f hf hsome
    exact shellSyncRun_abort proj dr bk CONFIG_FILES d [] f hf hsome
  · intro gen hub d dr bk frc f hf hsome
    have h := shellSyncRun_abort hub dr bk CONFIG_FILES d [] f hf hsome
    cases dr with
    | true => simpa [pull_from_default] using h
    | false =>
      simp only [pull_from_default, Bool.false_eq_true, if_false, h.2]
      exact ⟨h.1, trivial⟩

/-- C1 amended, witness: a project holding only `CLAUDE.md` makes a concrete
push die at `((count++))` with exit code 1 and no printed summary count. -/
theorem C1_sync_twice_amended_witness :
    (push_to_default [("CLAUDE.md", "x")] [] false false false).exitCode = 1
      ∧ (push_to_default [("CLAUDE.md", "x")] [] false false false).summaryCount
          = none :=
  C1_sync_twice_amended.2.2.2.1 [("CLAUDE.md", "x")] [] false false false
    "CLAUDE.md" (by decide) rfl

/-- C3 counterexample: `sync-to-project.js` prints exactly two aggregate
counters, short of the claimed three, and completes normally — counters
untouched, no abort — although every non-optional source file is missing
(the hub here is empty); and `push_to_default`, far from printing three
counters, dies at `((count++))` with exit code 1 and prints no aggregate
counter at all as soon as a single entry is copied. -/
theorem C3_counters_counterexample :
    (syncToProjectSummaryCounters (syncToProject [] [] false)).length = 2
      ∧ ¬ 3 ≤ (syncToProjectSummaryCounters (syncToProject [] [] false)).length
      ∧ syncToProject [] [] false = ⟨[], 0, 0⟩
      ∧ (push_to_default [("CLAUDE.md", "x")] [] false false false).summaryCount
          = none
      ∧ (push_to_default [("CLAUDE.md", "x")] [] false false false).exitCode = 1 := by
  refine ⟨rfl, by decide, by decide, by decide, by decide⟩

/-- C3 (amended): only `sync-all-projects.js` prints three aggregate counters
(synced, skipped, errors); `sync-to-project.js` and `pull-from-source.js`
print two counters each (applied and skipped) with no error counter; `push`
and `pull` print a single copied-file count, and only in the degenerate case
where no allowlisted entry exists under the source root — whenever at least
one entry is copied (or dry-run-reported) they die at `((count++))` under
`set -euo pipefail` with exit code 1 before any summary.  Among the sync
operations only `pull-from-source.js` errors out (exit 1) at a missing
non-optional source file; `sync-to-project.js` warns and continues with no
counter change at such an entry, and `push`/`pull` merely skip missing
sources with a warning. -/
theorem C3_counters_amended :
    (∀ r, (syncToProjectSummaryCounters r).length = 2)
    ∧ (∀ changed skipped : Nat,
        (pullFromSourceSummaryCounters changed skipped).length = 2)
    ∧ (∀ r, (syncAllSummaryCounters r).length = 3)
    ∧ (∀ r : ShellSyncResult, ∀ L : List Nat,
        pushSummaryCounters r = some L → L.length = 1)
    ∧ (∀ r : ShellSyncResult, ∀ L : List Nat,
        pullSummaryCounters r = some L → L.length = 1)
    ∧ (∀ proj d : FS, ∀ dr bk frc : Bool,
        (∀ f ∈ CONFIG_FILES, lookupFile proj f = none) →
        push_to_default proj d dr bk frc = ⟨d, [], 0, some 0⟩)
    ∧ (∀ proj d : FS, ∀ dr bk frc : Bool, ∀ f : String,
        f ∈ CONFIG_FILES → (lookupFile proj f).isSome = true →
        (push_to_default proj d dr bk frc).summaryCount = none)
    ∧ (∀ src : FS, ∀ dryRun : Bool, ∀ es : List PullEntry, ∀ e : PullEntry,
        ∀ dst : FS, ∀ ch sk : Nat, e.optional = false →
        lookupFile src e.source = none →
        pullGo src dryRun (e :: es) dst ch sk = .error (1, dst))
    ∧ (∀ hub : FS, ∀ dryRun : Bool, ∀ st : SyncToProjectResult, ∀ e : SyncEntry,
        lookupFile hub e.src = none → syncToProjectStep hub dryRun st e = st) := by
  refine ⟨fun _ => rfl, fun _ _ => rfl, fun _ => rfl, ?_, ?_, ?_, ?_, ?_, ?_⟩
  · intro r L h
    obtain ⟨de, bk, ec, sc⟩ := r
    cases sc with
    | none => simp [pushSummaryCounters] at h
    | some n =>
      simp [pushSummaryCounters] at h
      rw [← h]
      rfl
  · intro r L h
    obtain ⟨de, bk, ec, sc⟩ := r
    cases sc with
    | none => simp [pullSummaryCounters] at h
    | some n =>
      simp [pullSummaryCounters] at h
      rw [← h]
      rfl
  · intro proj d dr bk frc hall
    exact shellSyncRun_no_source proj dr bk CONFIG_FILES d [] hall
  · intro proj d dr bk frc f hf hsome
    exact (shellSyncRun_abort proj dr bk CONFIG_FILES d [] f hf hsome).2
  · intro src dryRun es e dst ch sk hopt hmiss
    simp [pullGo, hmiss, hopt]
  · intro hub dryRun st e hmiss
    simp [syncToProjectStep, hmiss]

/-- C3 amended, witness: an empty project makes push complete with a printed
count of 0; a project holding only `CLAUDE.md` makes push die before any
summary; `pull-from-source.js` aborts at a concrete missing non-optional
entry; and `sync-to-project.js` continues unchanged there. -/
theorem C3_counters_amended_witness :
    push_to_default [] [] false false false = ⟨[], [], 0, some 0⟩
      ∧ (push_to_default [("CLAUDE.md", "x")] [] false true false).summaryCount
          = none
      ∧ pullGo [] false [⟨"a", "b", false⟩] [] 0 0 = .error (1, [])
      ∧ syncToProjectStep [] false ⟨[], 0, 0⟩ ⟨"a", "b", false⟩ = ⟨[], 0, 0⟩ :=
  ⟨C3_counters_amended.2.2.2.2.2.1 [] [] false false false
      (fun f _ => rfl),
   C3_counters_amended.2.2.2.2.2.2.1 [("CLAUDE.md", "x")] [] false true false
      "CLAUDE.md" (by decide) rfl,
   C3_counters_amended.2.2.2.2.2.2.2.1 [] false [] ⟨"a", "b", false⟩ [] 0 0 rfl rfl,
   C3_counters_amended.2.2.2.2.2.2.2.2 [] false ⟨[], 0, 0⟩ ⟨"a", "b", false⟩ rfl⟩

/-- C4: for `sync-to-project.js`, a destination file whose sync-set entry is
marked optional is never overwritten: if it exists with any content before
the sync, its content is unchanged afterwards. -/
theorem C4_optional_never_overwritten (hub proj : FS) (dryRun : Bool)
    (e : SyncEntry) (v : String) (he : e ∈ filesToSync)
    (hopt : e.optional = true) (hv : lookupFile proj e.dest = some v) :
    lookupFile (syncToProject hub proj dryRun).proj e.dest = some v := by
  have hall : ∀ f ∈ filesToSync, f.dest = e.dest → f.optional = true := by
    fin_cases he
    all_goals first
      | exact absurd hopt (by decide)
      | decide
  cases dryRun with
  | true =>
    simpa [syncToProject, syncFold_dryRun_proj hub filesToSync ⟨proj, 0, 0⟩]
      using hv
  | false =>
    simp only [syncToProject, syncFold_proj_lookup, hv]
    exact syncAt_optional_stable hub e.dest filesToSync v hall

/-- C4 witness: a customized optional script survives a concrete sync
run unchanged. -/
theorem C4_optional_never_overwritten_witness :
    lookupFile (syncToProject [("scripts/restart-dev-server.js", "hubcopy")]
        [("scripts/restart-dev-server.js", "customized")] false).proj
      "scripts/restart-dev-server.js" = some "customized" :=
  C4_optional_never_overwritten
    [("scripts/restart-dev-server.js", "hubcopy")]
    [("scripts/restart-dev-server.js", "customized")] false
    ⟨"scripts/restart-dev-server.js", "scripts/restart-dev-server.js", true⟩
    "customized" (by decide) (by decide) (by decide)

/-- C5: each verify script exits non-zero exactly when some probe fails, and
prints exactly as many probe `Failed` lines as there are failing probes:
`verify-production.sh` over its three probes and `verify-preview.sh` over its
two. -/
theorem C5_verify_reduction :
    ∀ healthOk homeOk authOk : Bool,
      ((verifyProduction healthOk homeOk authOk).2.2 ≠ 0
          ↔ 0 < failCount [healthOk, homeOk, authOk])
        ∧ (verifyProduction healthOk homeOk authOk).1.count ProbeLine.failed
            = failCount [healthOk, homeOk, authOk]
        ∧ ((verifyPreview healthOk homeOk).2.2 ≠ 0
            ↔ 0 < failCount [healthOk, homeOk])
        ∧ (verifyPreview healthOk homeOk).1.count ProbeLine.failed
            = failCount [healthOk, homeOk] := by
  decide

/-- C6: whenever `deploy-production.sh` runs with the current branch different
from the manifest's preview branch, it exits non-zero before the confirmation
prompt is ever reached — the prompt, `git pull`, validation and PR creation
all stay out of the trace. -/
theorem C6_production_branch_gate (env : ProdEnv) (cfg : DeploymentConfig)
    (hc : env.config = some cfg) (hb : env.currentBranch ≠ cfg.previewBranch) :
    (deploy_production env).1 ≠ 0
      ∧ ProdEvent.confirmationPrompt ∉ (deploy_production env).2
      ∧ ProdEvent.gitPull ∉ (deploy_production env).2
      ∧ ProdEvent.validateProduction ∉ (deploy_production env).2
      ∧ ProdEvent.prCreate ∉ (deploy_production env).2 := by
  unfold deploy_production
  by_cases hm : env.missingTools = []
  · by_cases hg : env.ghAuthOk = true
    · simp [hm, hg, hc, hb]
    · simp [hm, hg]
  · simp [hm]

/-- C6 witness: on branch `main` with a `preview`-branch manifest, a concrete
`deploy-production.sh` run exits non-zero with an empty event trace. -/
theorem C6_production_branch_gate_witness :
    (deploy_production ⟨[], true,
        some (mkDeploymentConfig "demo" "oo" "rr" "demo" "acme" "demo.com" "p" "q"),
        "main", true, "yes", true, true⟩).1 ≠ 0
      ∧ ProdEvent.confirmationPrompt ∉ (deploy_production ⟨[], true,
          some (mkDeploymentConfig "demo" "oo" "rr" "demo" "acme" "demo.com" "p" "q"),
          "main", true, "yes", true, true⟩).2 :=
  (fun h => ⟨h.1, h.2.1⟩)
    (C6_production_branch_gate _
      (mkDeploymentConfig "demo" "oo" "rr" "demo" "acme" "demo.com" "p" "q")
      rfl (by decide))

/-- C7: whenever `deploy-preview.sh` runs with the current branch neither the
manifest's preview branch nor a `feature/*` branch, it exits non-zero and
never reaches `git push`. -/
theorem C7_preview_branch_gate (env : PrevEnv) (cfg : DeploymentConfig)
    (hc : env.config = some cfg) (hb : env.currentBranch ≠ cfg.previewBranch)
    (hf : ¬ env.currentBranch.startsWith "feature/") :
    (deploy_preview env).1 ≠ 0
      ∧ PrevEvent.gitPush ∉ (deploy_preview env).2 := by
  unfold deploy_preview
  by_cases hm : env.missingTools = []
  · simp [hm, hc, hb, hf]
  · simp [hm]

/-- C7 witness: on branch `hotfix` with a `preview`-branch manifest, a
concrete `deploy-preview.sh` run exits non-zero without pushing. -/
theorem C7_preview_branch_gate_witness :
    (deploy_preview ⟨[],
        some (mkDeploymentConfig "demo" "oo" "rr" "demo" "acme" "demo.com" "p" "q"),
        "hotfix", true, true, true, "y", true, true, true⟩).1 ≠ 0
      ∧ PrevEvent.gitPush ∉ (deploy_preview ⟨[],
          some (mkDeploymentConfig "demo" "oo" "rr" "demo" "acme" "demo.com" "p" "q"),
          "hotfix", true, true, true, "y", true, true, true⟩).2 :=
  C7_preview_branch_gate _
    (mkDeploymentConfig "demo" "oo" "rr" "demo" "acme" "demo.com" "p" "q")
    rfl (by decide) (by decide)

/-- C8 counterexample: the `deploy-production.sh` checklist prompt precedes
every mutation (with the reply `yes` the same run goes on to `git pull`), yet
declining it exits with code 1, not 0 — so declining this
mutation-preceding prompt is not a zero-exit cancellation, refuting the
claim as stated (no mutation does occur on decline). -/
theorem C8_confirmation_counterexample :
    (deploy_production ⟨[], true,
        some (mkDeploymentConfig "demo" "oo" "rr" "demo" "acme" "demo.com" "p" "q"),
        "preview", true, "n", true, true⟩).1 = 1
      ∧ (deploy_production ⟨[], true,
          some (mkDeploymentConfig "demo" "oo" "rr" "demo" "acme" "demo.com" "p" "q"),
          "preview", true, "n", true, true⟩).2
        = [ProdEvent.previewHealthProbe, ProdEvent.confirmationPrompt]
      ∧ ProdEvent.gitPull ∈ (deploy_production ⟨[], true,
          some (mkDeploymentConfig "demo" "oo" "rr" "demo" "acme" "demo.com" "p" "q"),
          "preview", true, "yes", true, true⟩).2 := by
  decide

/-- C8 (amended): declining `init-new-project.sh`'s confirmation prompt is a
clean cancellation — no mutation, exit code 0 — but declining
`deploy-production.sh`'s checklist prompt, although it likewise precedes and
prevents every mutation (`git pull`, validation, PR creation), exits with
code 1 rather than 0. -/
theorem C8_confirmation_amended (envI : InitEnv) (envP : ProdEnv)
    (cfg : DeploymentConfig)
    (h1 : envI.projectName ≠ "")
    (h2 : validProjectName envI.projectName = true)
    (h3 : envI.targetDirAlreadyExists = false)
    (h4 : envI.nodeAvailable = true) (h5 : envI.jqAvailable = true)
    (h6 : ¬ (envI.confirmationReply = "y" ∨ envI.confirmationReply = "Y"))
    (hp1 : envP.missingTools = []) (hp2 : envP.ghAuthOk = true)
    (hp3 : envP.config = some cfg)
    (hp4 : envP.currentBranch = cfg.previewBranch)
    (hp5 : envP.previewHealthy = true)
    (hp6 : envP.confirmationReply ≠ "yes") :
    init_new_project envI = (0, [], none)
      ∧ deploy_production envP
          = (1, [ProdEvent.previewHealthProbe, ProdEvent.confirmationPrompt]) := by
  constructor
  · unfold init_new_project
    simp [h1, h2, h3, h4, h5, h6]
  · unfold deploy_production
    simp [hp1, hp2, hp3, hp4, hp5, hp6]

/-- C8 amended, witness: concrete declined runs of both scripts. -/
theorem C8_confirmation_amended_witness :
    init_new_project ⟨"demo", false, true, true, "oo", "", "", "acme",
        "demo.com", "", "", "n", true⟩ = (0, [], none)
      ∧ deploy_production ⟨[], true,
          some (mkDeploymentConfig "demo" "oo" "rr" "demo" "acme" "demo.com" "p" "q"),
          "preview", true, "n", true, true⟩
        = (1, [ProdEvent.previewHealthProbe, ProdEvent.confirmationPrompt]) :=
  C8_confirmation_amended
    ⟨"demo", false, true, true, "oo", "", "", "acme", "demo.com", "", "", "n", true⟩
    ⟨[], true,
      some (mkDeploymentConfig "demo" "oo" "rr" "demo" "acme" "demo.com" "p" "q"),
      "preview", true, "n", true, true⟩
    (mkDeploymentConfig "demo" "oo" "rr" "demo" "acme" "demo.com" "p" "q")
    (by decide) (by decide) rfl rfl rfl (by decide)
    rfl rfl rfl rfl rfl (by decide)

/-- C9: reading the bootstrapper-written manifest back through
`export_config_vars` returns the configured value for every exported field,
with the preview URL following the convention
`https://<vercelProjectName>-git-preview-<team>.vercel.app`; in particular
for Vercel project name `demo` and team `acme` it is
`https://demo-git-preview-acme.vercel.app`. -/
theorem C9_manifest_round_trip :
    (∀ projectName githubOwner githubRepo vercelProjectName vercelTeam
        productionDomain prevRef prodRef : String,
      export_config_vars (mkDeploymentConfig projectName githubOwner githubRepo
          vercelProjectName vercelTeam productionDomain prevRef prodRef)
        = { PROJECT_NAME := projectName
          , GITHUB_OWNER := githubOwner
          , GITHUB_REPO := githubRepo
          , VERCEL_PROJECT_NAME := vercelProjectName
          , PREVIEW_URL := "https://" ++ vercelProjectName ++ "-git-preview-"
              ++ vercelTeam ++ ".vercel.app"
          , PRODUCTION_URL := "https://" ++ productionDomain
          , PREVIEW_BRANCH := "preview"
          , PRODUCTION_BRANCH := "main" })
    ∧ (mkDeploymentConfig "demo" "acme-team" "demo" "demo" "acme"
          "demo.example.com" "p1" "p2").previewUrl
        = "https://demo-git-preview-acme.vercel.app" :=
  ⟨fun _ _ _ _ _ _ _ _ => rfl, by decide⟩

/-- C10: when `pull-from-source.js` reaches a non-optional entry whose source
file is missing, it exits with code 1 right there: entries after it are never
examined (the result does not depend on them), while the destination keeps
exactly the files already rewritten by the earlier entries of the same run. -/
theorem C10_pullFromSource_missing_source_exit (src : FS) (dryRun : Bool)
    (pre post : List PullEntry) (e : PullEntry) (dst d1 : FS) (ch sk : Nat)
    (hok : pullGo src dryRun pre dst 0 0 = .ok (d1, ch, sk))
    (hopt : e.optional = false) (hmiss : lookupFile src e.source = none) :
    pullGo src dryRun (pre ++ e :: post) dst 0 0 = .error (1, d1) := by
  rw [pullGo_append, hok]
  simp [pullGo, hmiss, hopt]

/-- C10 witness: one earlier entry has already rewritten `"b"` when the run
aborts at the missing non-optional source `"x"`; the rewrite survives and the
trailing entry is never examined. -/
theorem C10_pullFromSource_missing_source_exit_witness :
    pullGo [("a", "A")] false
        ([⟨"a", "b", false⟩] ++ ⟨"x", "y", false⟩ :: [⟨"a", "z", false⟩])
        [] 0 0
      = .error (1, [("b", "A")]) :=
  C10_pullFromSource_missing_source_exit [("a", "A")] false
    [⟨"a", "b", false⟩] [⟨"a", "z", false⟩] ⟨"x", "y", false⟩
    [] [("b", "A")] 1 0 rfl rfl rfl
